import Mathlib

/-!
Verification of the EmmyLua VS Code extension entry point (`src/extension.ts`)
against its natural-language specification.

The file shallowly embeds the functions of `extension.ts` that the claims are
about:

* `validateJava` (lines 99-123): parses the stderr of `"<java>" -version`
  with the JavaScript regex `/(?:java|openjdk) version "((\d+)(\.(\d+).+?)?)"/g`
  and accepts exactly Java 1.8+.  The regex is embedded faithfully, including
  the backtracking behaviour of the greedy `\d+` groups, the lazy `.+?`
  (which matches any character except the JavaScript line terminators), and
  the left-to-right scan for the first successful match position.
* `startServer` / `doStartServer` (lines 125-204): the retry flow is embedded
  as a fuel-indexed trace function over oracles giving, per attempt, the
  outcome of Java validation, the outcome of the language-server start, and
  the user's response to the error message.  Crucially the source attaches
  `.then(startServer)` to the promise returned by `showErrorMessage`, so the
  sequence is re-run whenever the message is resolved, whatever the response.
* the `emmy/progressReport` notification handler (lines 195-203), with the
  set of scheduled 3-second hide timers made explicit.
* `restartServer` (lines 206-212), `onDidChangeConfiguration` (lines 84-97),
  `onDidChangeTextDocument` (lines 67-71), `onDidChangeActiveTextEditor`
  (lines 73-78), `onConfigUpdate` (lines 228-232) and
  `insertEmmyDebugCode` (lines 234-268).
-/

/-! ## The Java version regex

Source, line 105:
`let regexp:RegExp = /(?:java|openjdk) version "((\d+)(\.(\d+).+?)?)"/g;`

A JavaScript `.` (no `s` flag) matches every character except the four line
terminators `\n`, `\r`, U+2028, U+2029. -/

def dotAll (c : Char) : Bool :=
  !(c == '\n' || c == '\r' || c == '\u2028' || c == '\u2029')

/-- Scan for a closing `"` where every character skipped over must be
matchable by `.` (this is the continuation of the lazy `.+?` after its first
mandatory character). -/
def quoteScan : List Char → Bool
  | [] => false
  | c :: r => if c = '"' then true else (dotAll c && quoteScan r)

/-- `.+?"` : at least one `.`-matchable character, then a `"` reachable over
`.`-matchable characters. -/
def dotPlusQuote : List Char → Bool
  | [] => false
  | c :: r => dotAll c && quoteScan r

/-- `parseInt` on a non-empty decimal digit string (the regex groups `(\d+)`
only ever capture decimal digits). -/
def digitsVal (l : List Char) : Nat :=
  l.foldl (fun a c => 10 * a + (c.toNat - 48)) 0

/-- Backtracking of the greedy minor group `(\d+)` inside `(\.(\d+).+?)?`:
`ds` is the maximal digit run after the `.`, and the regex engine tries the
prefixes of `ds` as the minor capture, longest first, handing the rest to
`.+?"`.  Returns the value of the minor capture of the first success. -/
def tryMinorLen (ds r3 : List Char) : Nat → Option Nat
  | 0 => none
  | i + 1 =>
    if dotPlusQuote (ds.drop (i + 1) ++ r3) then some (digitsVal (ds.take (i + 1)))
    else tryMinorLen ds r3 i

def tryMinor (ds r3 : List Char) : Option Nat :=
  tryMinorLen ds r3 ds.length

/-- Match `(\d+)(\.(\d+).+?)?"` at the start of `s` (the part of the regex
after the literal `(?:java|openjdk) version "`), returning
`(parseInt(match[2]) || 0, parseInt(match[4]) || 0)`, i.e. the major and the
minor (0 when the optional group did not participate) on success.

The major `(\d+)` is the maximal digit run: giving a digit back would put a
digit in front of `\.` or `"`, which both fail on digits.  If the optional
group fails, the `"` of the pattern must follow the major run directly. -/
def matchVersionTail (s : List Char) : Option (Nat × Nat) :=
  if (s.takeWhile Char.isDigit).isEmpty then none
  else if (s.dropWhile Char.isDigit).head? = some '.' then
    match tryMinor (((s.dropWhile Char.isDigit).tail).takeWhile Char.isDigit)
        (((s.dropWhile Char.isDigit).tail).dropWhile Char.isDigit) with
    | some minorVal => some (digitsVal (s.takeWhile Char.isDigit), minorVal)
    | none => none
  else if (s.dropWhile Char.isDigit).head? = some '"' then
    some (digitsVal (s.takeWhile Char.isDigit), 0)
  else none

def startsWith : List Char → List Char → Bool
  | [], _ => true
  | _ :: _, [] => false
  | p :: ps, c :: cs => if p = c then startsWith ps cs else false

/-- The literal alternative `java version "`. -/
def javaPat : List Char :=
  ['j', 'a', 'v', 'a', ' ', 'v', 'e', 'r', 's', 'i', 'o', 'n', ' ', '"']

/-- The literal alternative `openjdk version "`. -/
def openjdkPat : List Char :=
  ['o', 'p', 'e', 'n', 'j', 'd', 'k', ' ', 'v', 'e', 'r', 's', 'i', 'o', 'n', ' ', '"']

/-- Try the whole regex anchored at the current position (`java` is tried
before `openjdk`; the two literals can never both match at one position). -/
def tryAt (s : List Char) : Option (Nat × Nat) :=
  if startsWith javaPat s then matchVersionTail (s.drop javaPat.length)
  else if startsWith openjdkPat s then matchVersionTail (s.drop openjdkPat.length)
  else none

/-- `regexp.exec(stderr)`: scan left to right for the first position where
the whole pattern matches. -/
def execVersion : List Char → Option (Nat × Nat)
  | [] => none
  | c :: rest =>
    match tryAt (c :: rest) with
    | some r => some r
    | none => execVersion rest

/-- Outcome of `validateJava` (source lines 99-123).
`resolved` is the promise resolving; `unsupportedVersion` is
`reject("Unsupported Java version: <match[1]>, please install Java 1.8 or above.")`;
`runtimeMissing` is
`reject("Can\x27t find Java! Please install Java 1.8 or above and set JAVA_HOME environment variable.")`. -/
inductive JavaCheck where
  | resolved
  | unsupportedVersion
  | runtimeMissing
deriving DecidableEq

/-- `validateJava`, as a function of the stderr produced by the version
query (source lines 104-121): an empty (falsy) stderr or a stderr where the
regex finds no match rejects with the runtime-missing message; a match with
`major > 1 || (major === 1 && minor >= 8)` resolves; any other match rejects
with the unsupported-version message. -/
def acceptVersion : Option (Nat × Nat) → JavaCheck
  | some (major, minor) =>
    if 1 < major ∨ (major = 1 ∧ 8 ≤ minor) then .resolved else .unsupportedVersion
  | none => .runtimeMissing

def validateJava (stderr : List Char) : JavaCheck :=
  if stderr.isEmpty then .runtimeMissing else acceptVersion (execVersion stderr)

/-! Decimal rendering of a natural number, used to build concrete version
strings for the theorems about `validateJava`. -/

def digitChar (d : Nat) : Char :=
  if d = 0 then '0' else if d = 1 then '1' else if d = 2 then '2'
  else if d = 3 then '3' else if d = 4 then '4' else if d = 5 then '5'
  else if d = 6 then '6' else if d = 7 then '7' else if d = 8 then '8' else '9'

def natDigits (n : Nat) : List Char :=
  if _h : n < 10 then [digitChar n]
  else natDigits (n / 10) ++ [digitChar (n % 10)]
decreasing_by exact Nat.div_lt_self (by omega) (by omega)

/-- A stderr line of the shape `java version "<maj>.<minr><suffix>"`
(or the `openjdk` variant when `ojdk` is set). -/
def verOut (ojdk : Bool) (maj minr : Nat) (suffix : List Char) : List Char :=
  (if ojdk then openjdkPat else javaPat) ++
    (natDigits maj ++ ('.' :: (natDigits minr ++ (suffix ++ ['"']))))

/-- A stderr line of the shape `java version "<maj>"`: the optional
`(\.(\d+).+?)?` group does not participate, so the minor defaults to 0. -/
def verOutNoMinor (ojdk : Bool) (maj : Nat) : List Char :=
  (if ojdk then openjdkPat else javaPat) ++ (natDigits maj ++ ['"'])

/-! ### Support lemmas for the regex embedding -/

theorem digitChar_toNat (d : Nat) (h : d < 10) : (digitChar d).toNat = 48 + d := by
  interval_cases d <;> decide

theorem digitChar_isDigit (d : Nat) (h : d < 10) : (digitChar d).isDigit = true := by
  interval_cases d <;> decide

theorem natDigits_ne_nil (n : Nat) : natDigits n ≠ [] := by
  rw [natDigits]
  split <;> simp

theorem natDigits_all_digit (n : Nat) : ∀ c ∈ natDigits n, Char.isDigit c = true := by
  induction n using Nat.strong_induction_on with
  | _ n ih =>
    rw [natDigits]
    split
    · next h =>
      intro c hc
      rw [List.mem_singleton] at hc
      subst hc
      exact digitChar_isDigit n h
    · next h =>
      intro c hc
      rcases List.mem_append.mp hc with h1 | h2
      · exact ih (n / 10) (Nat.div_lt_self (by omega) (by omega)) c h1
      · rw [List.mem_singleton] at h2
        subst h2
        exact digitChar_isDigit (n % 10) (Nat.mod_lt _ (by omega))

theorem digitsVal_append_digit (l : List Char) (c : Char) :
    digitsVal (l ++ [c]) = 10 * digitsVal l + (c.toNat - 48) := by
  simp [digitsVal, List.foldl_append]

theorem digitsVal_natDigits (n : Nat) : digitsVal (natDigits n) = n := by
  induction n using Nat.strong_induction_on with
  | _ n ih =>
    rw [natDigits]
    split
    · next h =>
      simp only [digitsVal, List.foldl_cons, List.foldl_nil]
      rw [digitChar_toNat n h]
      omega
    · next h =>
      rw [digitsVal_append_digit, ih (n / 10) (Nat.div_lt_self (by omega) (by omega)),
        digitChar_toNat (n % 10) (Nat.mod_lt _ (by omega))]
      omega

theorem takeWhile_digits_append (l : List Char) (c : Char) (r : List Char)
    (hl : ∀ x ∈ l, Char.isDigit x = true) (hc : Char.isDigit c = false) :
    (l ++ c :: r).takeWhile Char.isDigit = l ∧
      (l ++ c :: r).dropWhile Char.isDigit = c :: r := by
  induction l with
  | nil => simp [List.takeWhile_cons, List.dropWhile_cons, hc]
  | cons a l ih =>
    have ha : Char.isDigit a = true := hl a (List.mem_cons_self a l)
    have ih' := ih fun x hx => hl x (List.mem_cons_of_mem a hx)
    simp [List.takeWhile_cons, List.dropWhile_cons, ha, ih'.1, ih'.2]

theorem quoteScan_reaches (l r : List Char) (hl : ∀ x ∈ l, dotAll x = true) :
    quoteScan (l ++ '"' :: r) = true := by
  induction l with
  | nil => simp [quoteScan]
  | cons a l ih =>
    by_cases ha : a = '"'
    · simp [quoteScan, ha]
    · simp [quoteScan, ha, hl a (List.mem_cons_self a l),
        ih fun x hx => hl x (List.mem_cons_of_mem a hx)]

theorem tryMinor_full (ds r3 : List Char) (hne : ds ≠ [])
    (hq : dotPlusQuote r3 = true) : tryMinor ds r3 = some (digitsVal ds) := by
  rcases ds with _ | ⟨d, ds'⟩
  · exact absurd rfl hne
  · rw [tryMinor, List.length_cons, tryMinorLen, List.drop_succ_cons, List.drop_length,
      List.take_succ_cons, List.take_length]
    simp [hq]

theorem matchVersionTail_minor (maj minr : Nat) (c : Char) (cs : List Char)
    (hc : Char.isDigit c = false) (hcdot : dotAll c = true)
    (hcs : ∀ x ∈ cs, dotAll x = true) :
    matchVersionTail (natDigits maj ++ ('.' :: (natDigits minr ++ ((c :: cs) ++ ['"'])))) =
      some (maj, minr) := by
  obtain ⟨tw, dw⟩ :=
    takeWhile_digits_append (natDigits maj) '.' (natDigits minr ++ ((c :: cs) ++ ['"']))
      (natDigits_all_digit maj) (by decide)
  have hE : (natDigits maj).isEmpty = false := by
    simpa [List.isEmpty_iff] using natDigits_ne_nil maj
  obtain ⟨tw2, dw2⟩ :=
    takeWhile_digits_append (natDigits minr) c (cs ++ ['"'])
      (natDigits_all_digit minr) hc
  have hq : dotPlusQuote (c :: (cs ++ ['"'])) = true := by
    rw [dotPlusQuote, hcdot]
    simpa using quoteScan_reaches cs [] hcs
  have htm : tryMinor (natDigits minr) (c :: (cs ++ ['"'])) = some minr := by
    rw [tryMinor_full _ _ (natDigits_ne_nil minr) hq, digitsVal_natDigits]
  unfold matchVersionTail
  rw [tw, dw, hE]
  simp only [Bool.false_eq_true, if_false, List.head?_cons, Option.some.injEq, List.tail_cons,
    List.cons_append, List.nil_append] at tw2 dw2 ⊢
  simp only [if_true]
  rw [tw2, dw2, htm]
  simp [digitsVal_natDigits]

theorem matchVersionTail_noMinor (maj : Nat) :
    matchVersionTail (natDigits maj ++ ['"']) = some (maj, 0) := by
  obtain ⟨tw, dw⟩ :=
    takeWhile_digits_append (natDigits maj) '"' [] (natDigits_all_digit maj) (by decide)
  have hE : (natDigits maj).isEmpty = false := by
    simpa [List.isEmpty_iff] using natDigits_ne_nil maj
  unfold matchVersionTail
  rw [tw, dw, hE]
  simp [digitsVal_natDigits]

theorem startsWith_append (p s : List Char) : startsWith p (p ++ s) = true := by
  induction p with
  | nil => rfl
  | cons a p ih => simp [startsWith, ih]

theorem mem_of_startsWith (p s : List Char) (x : Char) (hp : startsWith p s = true)
    (hx : x ∈ p) : x ∈ s := by
  induction p generalizing s with
  | nil => simp at hx
  | cons a p ih =>
    cases s with
    | nil => simp [startsWith] at hp
    | cons b s =>
      rw [startsWith] at hp
      by_cases hab : a = b
      · rw [if_pos hab] at hp
        rcases List.mem_cons.mp hx with rfl | hx2
        · subst hab
          exact List.mem_cons_self x s
        · exact List.mem_cons_of_mem b (ih s hp hx2)
      · rw [if_neg hab] at hp
        exact absurd hp (by simp)

theorem tryAt_java (rest : List Char) : tryAt (javaPat ++ rest) = matchVersionTail rest := by
  rw [tryAt, startsWith_append]
  simp [List.drop_left]

theorem tryAt_openjdk (rest : List Char) :
    tryAt (openjdkPat ++ rest) = matchVersionTail rest := by
  have hj : startsWith javaPat (openjdkPat ++ rest) = false := by
    simp [javaPat, openjdkPat, startsWith]
  rw [tryAt, hj, startsWith_append]
  simp [List.drop_left]

theorem execVersion_cons (x : Char) (xs : List Char) :
    execVersion (x :: xs) =
      match tryAt (x :: xs) with
      | some r => some r
      | none => execVersion xs := by
  rw [execVersion]

theorem execVersion_eq_some (s : List Char) (hs : s ≠ []) (r : Nat × Nat)
    (h : tryAt s = some r) : execVersion s = some r := by
  cases s with
  | nil => exact absurd rfl hs
  | cons x xs => rw [execVersion_cons, h]

theorem execVersion_no_quote (s : List Char) (h : '"' ∉ s) : execVersion s = none := by
  induction s with
  | nil => rfl
  | cons c rest ih =>
    have hq : '"' ∉ rest := fun hx => h (List.mem_cons_of_mem c hx)
    have hj : startsWith javaPat (c :: rest) = false := by
      cases hjv : startsWith javaPat (c :: rest) with
      | false => rfl
      | true => exact absurd (mem_of_startsWith _ _ '"' hjv (by decide)) h
    have ho : startsWith openjdkPat (c :: rest) = false := by
      cases hov : startsWith openjdkPat (c :: rest) with
      | false => rfl
      | true => exact absurd (mem_of_startsWith _ _ '"' hov (by decide)) h
    have ht : tryAt (c :: rest) = none := by
      rw [tryAt, hj, ho]
      simp
    rw [execVersion_cons, ht]
    exact ih hq

/-- Claim C1: for every stderr of the Java version query containing a version
string of the form `(java|openjdk) version "<major>.<minor>..."` (trailing
content made of `.`-matchable characters, the first of which is not a digit),
`validateJava` resolves if and only if `major > 1` or `major = 1 ∧ minor ≥ 8`,
and otherwise rejects with the unsupported-version message; a version string
with no minor component is treated as `minor = 0` and accepted exactly when
`major > 1`; a stderr containing no `"` at all (hence no recognizable version
string) is rejected with the runtime-missing message. -/
theorem c1_validateJava :
    (∀ (ojdk : Bool) (maj minr : Nat) (c : Char) (cs : List Char),
      Char.isDigit c = false → dotAll c = true → (∀ x ∈ cs, dotAll x = true) →
      validateJava (verOut ojdk maj minr (c :: cs)) =
        (if 1 < maj ∨ (maj = 1 ∧ 8 ≤ minr) then JavaCheck.resolved
         else JavaCheck.unsupportedVersion)) ∧
    (∀ (ojdk : Bool) (maj : Nat),
      validateJava (verOutNoMinor ojdk maj) =
        (if 1 < maj then JavaCheck.resolved else JavaCheck.unsupportedVersion)) ∧
    (∀ s : List Char, '"' ∉ s → validateJava s = JavaCheck.runtimeMissing) := by
  refine ⟨?_, ?_, ?_⟩
  · intro ojdk maj minr c cs hc hcd hcs
    have hmt := matchVersionTail_minor maj minr c cs hc hcd hcs
    have hex : execVersion (verOut ojdk maj minr (c :: cs)) = some (maj, minr) := by
      cases ojdk with
      | false =>
        rw [show verOut false maj minr (c :: cs) =
            javaPat ++ (natDigits maj ++ ('.' :: (natDigits minr ++ ((c :: cs) ++ ['"']))))
          from rfl]
        exact execVersion_eq_some _ (by simp [javaPat]) _ (by rw [tryAt_java]; exact hmt)
      | true =>
        rw [show verOut true maj minr (c :: cs) =
            openjdkPat ++ (natDigits maj ++ ('.' :: (natDigits minr ++ ((c :: cs) ++ ['"']))))
          from rfl]
        exact execVersion_eq_some _ (by simp [openjdkPat]) _ (by rw [tryAt_openjdk]; exact hmt)
    have hne : (verOut ojdk maj minr (c :: cs)).isEmpty = false := by
      cases ojdk <;> simp [verOut, javaPat, openjdkPat]
    rw [validateJava, hne, hex]
    simp [acceptVersion]
  · intro ojdk maj
    have hmt := matchVersionTail_noMinor maj
    have hex : execVersion (verOutNoMinor ojdk maj) = some (maj, 0) := by
      cases ojdk with
      | false =>
        rw [show verOutNoMinor false maj = javaPat ++ (natDigits maj ++ ['"']) from rfl]
        exact execVersion_eq_some _ (by simp [javaPat]) _ (by rw [tryAt_java]; exact hmt)
      | true =>
        rw [show verOutNoMinor true maj = openjdkPat ++ (natDigits maj ++ ['"']) from rfl]
        exact execVersion_eq_some _ (by simp [openjdkPat]) _ (by rw [tryAt_openjdk]; exact hmt)
    have hne : (verOutNoMinor ojdk maj).isEmpty = false := by
      cases ojdk <;> simp [verOutNoMinor, javaPat, openjdkPat]
    rw [validateJava, hne, hex]
    simp only [Bool.false_eq_true, if_false, acceptVersion]
    by_cases h : 1 < maj
    · rw [if_pos (Or.inl h), if_pos h]
    · rw [if_neg, if_neg h]
      rintro (h1 | ⟨rfl, h8⟩)
      · exact h h1
      · omega
  · intro s h
    rw [validateJava]
    split
    · rfl
    · rw [execVersion_no_quote s h]
      rfl

/-- Witness for C1: concrete instances `java version "1.8.0_202"` (resolved),
`openjdk version "1.7.0"` (unsupported), `java version "11"` (resolved with
defaulted minor), and a quote-free garbage stderr (runtime missing). -/
theorem c1_validateJava_witness :
    validateJava (verOut false 1 8 ('_' :: ['2', '0', '2'])) = JavaCheck.resolved ∧
    validateJava (verOut true 1 7 ('.' :: ['0'])) = JavaCheck.unsupportedVersion ∧
    validateJava (verOutNoMinor false 11) = JavaCheck.resolved ∧
    validateJava ['n', 'o', 'p', 'e'] = JavaCheck.runtimeMissing := by
  refine ⟨?_, ?_, ?_, ?_⟩
  · rw [c1_validateJava.1 false 1 8 '_' ['2', '0', '2'] (by decide) (by decide) (by decide)]
    decide
  · rw [c1_validateJava.1 true 1 7 '.' ['0'] (by decide) (by decide) (by decide)]
    decide
  · rw [c1_validateJava.2.1 false 11]
    decide
  · exact c1_validateJava.2.2 ['n', 'o', 'p', 'e'] (by decide)

/-! ## The server bootstrap (`startServer` / `doStartServer` / `restartServer`)

Source lines 125-212.  `startServer` validates the Java runtime (unless
`DEBUG_MODE`), surfaces failures of validation or of `doStartServer` through
`vscode.window.showErrorMessage(msg, "Try again").then(startServer)`, and on
success connects the language client.  The embedding is a fuel-indexed trace
over three oracles indexed by the attempt number:

* `validations n`  : `none` if `validateJava` resolves at attempt `n`,
  `some msg` if it rejects with message `msg`;
* `startResults n` : `none` if `doStartServer` succeeds at attempt `n`,
  `some reason` if its promise rejects with `reason`;
* `responses n`    : the value the `showErrorMessage` promise resolves with
  at attempt `n` — `some "Try again"` when the button is chosen, `none` when
  the message is dismissed.

Because the source chains `.then(startServer)` (lines 132-133 and 140-141),
the recursion into the next attempt happens on ANY resolution of the message,
independently of `responses n`. -/

/-- One of the two transports of `doStartServer` (source lines 164-189):
dev mode connects to the fixed local port 5007; production mode spawns
`<javaExecutablePath || "java"> -cp <extensionPath>/server/* com.tang.vscode.MainKt -XX:+UseConcMarkSweepGC`. -/
inductive ServerOptions where
  | socket (port : Nat)
  | spawn (command : String) (args : List String)
deriving DecidableEq

/-- JavaScript `javaExecutablePath || "java"` (lines 100 and 184): `null`
and the empty string are falsy. -/
def jsOrJava (p : Option String) : String :=
  match p with
  | some s => if s = "" then "java" else s
  | none => "java"

/-- `path.resolve(savedContext.extensionPath, "server", "*")` for an absolute
extension path (line 183). -/
def serverClasspath (extensionPath : String) : String :=
  extensionPath ++ "/server/*"

def mkServerOptions (debugMode : Bool) (extensionPath : String)
    (javaExecutablePath : Option String) : ServerOptions :=
  if debugMode then .socket 5007
  else
    .spawn (jsOrJava javaExecutablePath)
      ["-cp", serverClasspath extensionPath, "com.tang.vscode.MainKt",
        "-XX:+UseConcMarkSweepGC"]

/-- Message of line 140: `Failed to start "EmmyLua" language server!\n<reson>`. -/
def failedStartMsg (reason : String) : String :=
  "Failed to start \"EmmyLua\" language server!\n" ++ reason

/-- Observable events of the bootstrap flow. -/
inductive Ev where
  | validateJavaRun
  | errorShown (msg : String) (items : List String) (response : Option String)
  | connect (opts : ServerOptions)
  | serverReady
  | clientStopped
deriving DecidableEq

/-- Trace of `startServer` (source lines 125-143) starting at attempt `n`,
with enough `fuel` for at most `fuel` attempts (an exhausted fuel models a
still-pending retry chain).  Note that both failure branches re-enter
`startServer` via `.then(startServer)` regardless of `responses n`. -/
def startServerAux (debugMode : Bool) (extensionPath : String)
    (javaExecutablePath : Option String)
    (validations startResults responses : Nat → Option String) :
    Nat → Nat → List Ev
  | 0, _ => []
  | fuel + 1, n =>
    (if debugMode then [] else [Ev.validateJavaRun]) ++
      match (if debugMode then none else validations n) with
      | some msg =>
        Ev.errorShown msg ["Try again"] (responses n) ::
          startServerAux debugMode extensionPath javaExecutablePath validations
            startResults responses fuel (n + 1)
      | none =>
        match startResults n with
        | some reason =>
          Ev.errorShown (failedStartMsg reason) ["Try again"] (responses n) ::
            startServerAux debugMode extensionPath javaExecutablePath validations
              startResults responses fuel (n + 1)
        | none =>
          [Ev.connect (mkServerOptions debugMode extensionPath javaExecutablePath),
            Ev.serverReady]

/-- Trace of `startServer` from the top (attempt 0). -/
def startServerTrace (debugMode : Bool) (extensionPath : String)
    (javaExecutablePath : Option String)
    (validations startResults responses : Nat → Option String) (fuel : Nat) : List Ev :=
  startServerAux debugMode extensionPath javaExecutablePath validations startResults
    responses fuel 0

/-- `restartServer` (source lines 206-212): with no client it calls
`startServer()`; with a client it calls `client.stop().then(startServer)`. -/
def restartServerTrace (clientExists : Bool) (debugMode : Bool) (extensionPath : String)
    (javaExecutablePath : Option String)
    (validations startResults responses : Nat → Option String) (fuel : Nat) : List Ev :=
  if clientExists then
    Ev.clientStopped ::
      startServerTrace debugMode extensionPath javaExecutablePath validations
        startResults responses fuel
  else
    startServerTrace debugMode extensionPath javaExecutablePath validations
      startResults responses fuel

/-- Modelled from the spec's words for the refinement side of claim C4: a
"fresh start" is the `startServer` sequence run from the top. -/
def freshStartTrace (debugMode : Bool) (extensionPath : String)
    (javaExecutablePath : Option String)
    (validations startResults responses : Nat → Option String) (fuel : Nat) : List Ev :=
  startServerTrace debugMode extensionPath javaExecutablePath validations startResults
    responses fuel

/-- Erase the user's response from an event, to compare traces across
different user behaviours. -/
def stripResponse : Ev → Ev
  | .errorShown m it _ => .errorShown m it none
  | ev => ev

def isErrorShown : Ev → Bool
  | .errorShown _ _ _ => true
  | _ => false

/-- Number of error messages surfaced in a trace. -/
def errCount (tr : List Ev) : Nat := (tr.filter isErrorShown).length

theorem startServerAux_succ_prod (e : String) (j : Option String)
    (v s r : Nat → Option String) (fuel n : Nat) :
    startServerAux false e j v s r (fuel + 1) n =
      Ev.validateJavaRun ::
        (match v n with
         | some msg =>
           Ev.errorShown msg ["Try again"] (r n) ::
             startServerAux false e j v s r fuel (n + 1)
         | none =>
           match s n with
           | some reason =>
             Ev.errorShown (failedStartMsg reason) ["Try again"] (r n) ::
               startServerAux false e j v s r fuel (n + 1)
           | none => [Ev.connect (mkServerOptions false e j), Ev.serverReady]) := by
  rw [startServerAux]
  simp

theorem startServerAux_succ_debug (e : String) (j : Option String)
    (v s r : Nat → Option String) (fuel n : Nat) :
    startServerAux true e j v s r (fuel + 1) n =
      match s n with
      | some reason =>
        Ev.errorShown (failedStartMsg reason) ["Try again"] (r n) ::
          startServerAux true e j v s r fuel (n + 1)
      | none => [Ev.connect (mkServerOptions true e j), Ev.serverReady] := by
  rw [startServerAux]
  simp

theorem startServerAux_errorItems (debugMode : Bool) (e : String) (j : Option String)
    (v s r : Nat → Option String) :
    ∀ fuel n m it resp,
      Ev.errorShown m it resp ∈ startServerAux debugMode e j v s r fuel n →
      it = ["Try again"] := by
  intro fuel
  induction fuel with
  | zero =>
    intro n m it resp h
    simp [startServerAux] at h
  | succ fuel ih =>
    intro n m it resp h
    rw [startServerAux] at h
    rcases List.mem_append.mp h with h1 | h2
    · by_cases hd : debugMode <;> simp [hd] at h1
    · cases hv : (if debugMode then none else v n) with
      | some msg =>
        rw [hv] at h2
        rcases List.mem_cons.mp h2 with heq | h3
        · simp at heq
          exact heq.2.1
        · exact ih (n + 1) m it resp h3
      | none =>
        rw [hv] at h2
        cases hs : s n with
        | some reason =>
          rw [hs] at h2
          rcases List.mem_cons.mp h2 with heq | h3
          · simp at heq
            exact heq.2.1
          · exact ih (n + 1) m it resp h3
        | none =>
          rw [hs] at h2
          simp at h2

theorem startServerAux_resp_irrel (debugMode : Bool) (e : String) (j : Option String)
    (v s r r' : Nat → Option String) :
    ∀ fuel n,
      (startServerAux debugMode e j v s r fuel n).map stripResponse =
        (startServerAux debugMode e j v s r' fuel n).map stripResponse := by
  intro fuel
  induction fuel with
  | zero => intro n; rfl
  | succ fuel ih =>
    intro n
    rw [startServerAux, startServerAux]
    cases hv : (if debugMode then none else v n) with
    | some msg =>
      simp only [List.map_append, List.map_cons, stripResponse]
      rw [ih (n + 1)]
    | none =>
      cases hs : s n with
      | some reason =>
        simp only [List.map_append, List.map_cons, stripResponse]
        rw [ih (n + 1)]
      | none => rfl

theorem startServerAux_unbounded (e : String) (j : Option String)
    (v s r : Nat → Option String) :
    ∀ k n, (∀ i, i < k → (v (n + i)).isSome = true) → v (n + k) = none →
      s (n + k) = none →
      errCount (startServerAux false e j v s r (k + 1) n) = k ∧
        Ev.serverReady ∈ startServerAux false e j v s r (k + 1) n := by
  intro k
  induction k with
  | zero =>
    intro n _ hv hs
    rw [Nat.add_zero] at hv hs
    rw [startServerAux_succ_prod, hv, hs]
    simp [errCount, isErrorShown]
  | succ k ih =>
    intro n hlt hv hs
    obtain ⟨msg, hmsg⟩ : ∃ msg, v n = some msg := by
      have h0 := hlt 0 (Nat.succ_pos k)
      rw [Nat.add_zero] at h0
      exact Option.isSome_iff_exists.mp h0
    have ih' := ih (n + 1)
      (fun i hi => by
        have hx := hlt (i + 1) (by omega)
        rwa [show n + (i + 1) = n + 1 + i by omega] at hx)
      (by rwa [show n + 1 + k = n + (k + 1) by omega])
      (by rwa [show n + 1 + k = n + (k + 1) by omega])
    rw [startServerAux_succ_prod, hmsg]
    constructor
    · have h1 : errCount (Ev.validateJavaRun :: Ev.errorShown msg ["Try again"] (r n) ::
          startServerAux false e j v s r (k + 1) (n + 1)) =
          errCount (startServerAux false e j v s r (k + 1) (n + 1)) + 1 := by
        simp [errCount, List.filter_cons, isErrorShown]
      rw [h1, ih'.1]
    · simp only [List.mem_cons]
      exact Or.inr (Or.inr ih'.2)

/-- Environment for the C2 counterexample: the first attempt fails runtime
validation, every later attempt succeeds, and the user never chooses
"Try again" — every message is dismissed (`showErrorMessage` resolves with
`undefined`). -/
def c2Validations : Nat → Option String := fun i => if i = 0 then some "no java" else none

def c2Starts : Nat → Option String := fun _ => none

def c2Responses : Nat → Option String := fun _ => none

/-- Counterexample to claim C2 as stated: the startup sequence is re-run even
though the user never chose the "Try again" action.  The user dismisses the
error message (response `none`), yet the trace shows a second run of runtime
validation followed by a successful start, because the source chains
`.then(startServer)` on the `showErrorMessage` promise, which also fires when
the message is dismissed. -/
theorem c2_dismiss_counterexample :
    startServerAux false "/ext" none c2Validations c2Starts c2Responses 2 0 =
      [Ev.validateJavaRun,
        Ev.errorShown "no java" ["Try again"] none,
        Ev.validateJavaRun,
        Ev.connect (ServerOptions.spawn "java"
          ["-cp", "/ext/server/*", "com.tang.vscode.MainKt", "-XX:+UseConcMarkSweepGC"]),
        Ev.serverReady] := by
  rfl

/-- Claim C2 (amended): after a failure of runtime validation or of server
start, an error message with the single action "Try again" is shown, and the
entire startup sequence (from the top, including runtime validation) is
re-run whenever that message is resolved — both when the user chooses
"Try again" and when the message is dismissed; the retry structure of the
trace does not depend on the user's responses, and there is no bounded retry
count: for every `k`, `k` consecutive failures produce `k` error messages and
the `k`-th retry still runs and can succeed. -/
theorem c2_retryFlow (e : String) (j : Option String)
    (v s r r' : Nat → Option String) (fuel n k : Nat) :
    (∀ m it resp,
      Ev.errorShown m it resp ∈ startServerAux false e j v s r fuel n →
      it = ["Try again"]) ∧
    (∀ msg, v n = some msg →
      startServerAux false e j v s r (fuel + 1) n =
        Ev.validateJavaRun :: Ev.errorShown msg ["Try again"] (r n) ::
          startServerAux false e j v s r fuel (n + 1)) ∧
    (∀ reason, v n = none → s n = some reason →
      startServerAux false e j v s r (fuel + 1) n =
        Ev.validateJavaRun :: Ev.errorShown (failedStartMsg reason) ["Try again"] (r n) ::
          startServerAux false e j v s r fuel (n + 1)) ∧
    ((startServerAux false e j v s r fuel n).map stripResponse =
      (startServerAux false e j v s r' fuel n).map stripResponse) ∧
    ((∀ i, i < k → (v i).isSome = true) → v k = none → s k = none →
      errCount (startServerAux false e j v s r (k + 1) 0) = k ∧
        Ev.serverReady ∈ startServerAux false e j v s r (k + 1) 0) := by
  refine ⟨startServerAux_errorItems false e j v s r fuel n,
    fun msg hv => ?_, fun reason hv hs => ?_,
    startServerAux_resp_irrel false e j v s r r' fuel n,
    fun hlt hv hs => startServerAux_unbounded e j v s r k 0
      (fun i hi => by simpa using hlt i hi) (by simpa using hv) (by simpa using hs)⟩
  · rw [startServerAux_succ_prod, hv]
  · rw [startServerAux_succ_prod, hv, hs]

/-- Witness for C2 (amended): in the dismissal environment the first failed
attempt unfolds to one error message followed by the re-run, and with one
failure the trace carries exactly one error message and still reaches
`serverReady`. -/
theorem c2_retryFlow_witness :
    startServerAux false "/ext" none c2Validations c2Starts c2Responses 2 0 =
      Ev.validateJavaRun :: Ev.errorShown "no java" ["Try again"] none ::
        startServerAux false "/ext" none c2Validations c2Starts c2Responses 1 1 ∧
    (errCount (startServerAux false "/ext" none c2Validations c2Starts c2Responses 2 0) = 1 ∧
      Ev.serverReady ∈ startServerAux false "/ext" none c2Validations c2Starts c2Responses 2 0) := by
  constructor
  · exact (c2_retryFlow "/ext" none c2Validations c2Starts c2Responses c2Responses 1 0 1).2.1
      "no java" (by decide)
  · exact (c2_retryFlow "/ext" none c2Validations c2Starts c2Responses c2Responses 1 0 1).2.2.2.2
      (by decide) (by decide) (by decide)

/-- Claim C4: invoking restart when no client connection exists performs
exactly the `startServer` sequence (a fresh start); when a connection exists,
restart first stops the current connection and only then starts a new one. -/
theorem c4_restartServer (debugMode : Bool) (e : String) (j : Option String)
    (v s r : Nat → Option String) (fuel : Nat) :
    restartServerTrace false debugMode e j v s r fuel =
        freshStartTrace debugMode e j v s r fuel ∧
      restartServerTrace true debugMode e j v s r fuel =
        Ev.clientStopped :: freshStartTrace debugMode e j v s r fuel :=
  ⟨rfl, rfl⟩

theorem startServerAux_debug_no_validate (e : String) (j : Option String)
    (v s r : Nat → Option String) :
    ∀ fuel n, Ev.validateJavaRun ∉ startServerAux true e j v s r fuel n := by
  intro fuel
  induction fuel with
  | zero =>
    intro n h
    simp [startServerAux] at h
  | succ fuel ih =>
    intro n h
    rw [startServerAux_succ_debug] at h
    cases hs : s n with
    | some reason =>
      rw [hs] at h
      rcases List.mem_cons.mp h with heq | h2
      · simp at heq
      · exact ih (n + 1) h2
    | none =>
      rw [hs] at h
      simp at h

theorem startServerAux_connect_opts (debugMode : Bool) (e : String) (j : Option String)
    (v s r : Nat → Option String) :
    ∀ fuel n o, Ev.connect o ∈ startServerAux debugMode e j v s r fuel n →
      o = mkServerOptions debugMode e j := by
  intro fuel
  induction fuel with
  | zero =>
    intro n o h
    simp [startServerAux] at h
  | succ fuel ih =>
    intro n o h
    rw [startServerAux] at h
    rcases List.mem_append.mp h with h1 | h2
    · by_cases hd : debugMode <;> simp [hd] at h1
    · cases hv : (if debugMode then none else v n) with
      | some msg =>
        rw [hv] at h2
        rcases List.mem_cons.mp h2 with heq | h3
        · simp at heq
        · exact ih (n + 1) o h3
      | none =>
        rw [hv] at h2
        cases hs : s n with
        | some reason =>
          rw [hs] at h2
          rcases List.mem_cons.mp h2 with heq | h3
          · simp at heq
          · exact ih (n + 1) o h3
        | none =>
          rw [hs] at h2
          simp at h2
          exact h2

/-- Claim C5: with the development flag set, the bootstrap never runs Java
validation (for every Java-locator result `j` and every validation oracle)
and every established transport is the fixed local socket on port 5007; with
the flag unset, the bootstrap starts with a Java validation run and every
established transport spawns
`<javaExecutablePath || "java"> -cp <extensionPath>/server/* com.tang.vscode.MainKt -XX:+UseConcMarkSweepGC`. -/
theorem c5_debugMode (e : String) (j : Option String)
    (v s r : Nat → Option String) (fuel n : Nat) :
    (Ev.validateJavaRun ∉ startServerAux true e j v s r fuel n) ∧
    (∀ o, Ev.connect o ∈ startServerAux true e j v s r fuel n →
      o = ServerOptions.socket 5007) ∧
    (0 < fuel → (startServerAux false e j v s r fuel n).head? = some Ev.validateJavaRun) ∧
    (∀ o, Ev.connect o ∈ startServerAux false e j v s r fuel n →
      o = ServerOptions.spawn (jsOrJava j)
        ["-cp", e ++ "/server/*", "com.tang.vscode.MainKt", "-XX:+UseConcMarkSweepGC"]) := by
  refine ⟨startServerAux_debug_no_validate e j v s r fuel n, fun o ho => ?_,
    fun hf => ?_, fun o ho => ?_⟩
  · have h := startServerAux_connect_opts true e j v s r fuel n o ho
    simpa [mkServerOptions] using h
  · obtain ⟨fuel', rfl⟩ : ∃ f, fuel = f + 1 := ⟨fuel - 1, by omega⟩
    rw [startServerAux_succ_prod]
    rfl
  · have h := startServerAux_connect_opts false e j v s r fuel n o ho
    simpa [mkServerOptions, serverClasspath] using h

/-- Witness for C5 at a concrete environment (all-success oracles, fuel 1):
the production trace starts with a validation run, the dev-mode transport is
the socket on port 5007, and the production transport is the spawned
`java -cp /ext/server/* com.tang.vscode.MainKt -XX:+UseConcMarkSweepGC`. -/
theorem c5_debugMode_witness :
    (startServerAux false "/ext" none (fun _ => none) (fun _ => none) (fun _ => none) 1 0).head? =
        some Ev.validateJavaRun ∧
      ServerOptions.socket 5007 = ServerOptions.socket 5007 ∧
      ServerOptions.spawn "java"
          ["-cp", "/ext/server/*", "com.tang.vscode.MainKt", "-XX:+UseConcMarkSweepGC"] =
        ServerOptions.spawn (jsOrJava none)
          ["-cp", "/ext" ++ "/server/*", "com.tang.vscode.MainKt", "-XX:+UseConcMarkSweepGC"] := by
  refine ⟨?_, ?_, ?_⟩
  · exact (c5_debugMode "/ext" none (fun _ => none) (fun _ => none) (fun _ => none) 1 0).2.2.1
      (by decide)
  · exact (c5_debugMode "/ext" none (fun _ => none) (fun _ => none) (fun _ => none) 1 0).2.1
      (ServerOptions.socket 5007) (by decide)
  · exact (c5_debugMode "/ext" none (fun _ => none) (fun _ => none) (fun _ => none) 1 0).2.2.2
      (ServerOptions.spawn "java"
        ["-cp", "/ext/server/*", "com.tang.vscode.MainKt", "-XX:+UseConcMarkSweepGC"])
      (by decide)

/-! ## The `emmy/progressReport` notification handler

Source lines 195-203:
the handler shows the status-bar item, sets its text, and, when
`d.percent >= 1`, schedules `progressBar.hide()` via `setTimeout(..., 3000)`.
Scheduled timeouts are never cancelled.  The embedding makes the pending
hide timers explicit as a list of absolute fire times (milliseconds). -/

structure ProgressReport where
  text : String
  percent : Rat

structure ProgressUI where
  visible : Bool
  text : String
  hideTimers : List Nat

/-- The notification handler, run at absolute time `now`. -/
def onProgressReport (now : Nat) (st : ProgressUI) (d : ProgressReport) : ProgressUI :=
  { visible := true
    text := d.text
    hideTimers :=
      if 1 ≤ d.percent then st.hideTimers ++ [now + 3000] else st.hideTimers }

/-- The event loop firing every timer due at time `t`: a fired timer runs
`progressBar.hide()`. -/
def fireDue (t : Nat) (st : ProgressUI) : ProgressUI :=
  if st.hideTimers.any (fun ft => decide (ft ≤ t)) then
    { st with visible := false, hideTimers := st.hideTimers.filter (fun ft => decide (t < ft)) }
  else st

/-- Claim C3: the handler schedules a hide at `now + 3000` exactly when the
report's percent is ≥ 1 (and always shows the indicator); a report with
percent < 1 leaves the scheduled timers untouched, so after a percent ≥ 1
report at `now`, a percent < 1 report arriving at any `t1 < now + 3000`
still results in the indicator being hidden when the timer fires at
`now + 3000`. -/
theorem c3_progressReport (now t1 : Nat) (st : ProgressUI) (d d2 : ProgressReport) :
    ((onProgressReport now st d).hideTimers =
      (if 1 ≤ d.percent then st.hideTimers ++ [now + 3000] else st.hideTimers)) ∧
    ((onProgressReport now st d).visible = true) ∧
    (d.percent < 1 → (onProgressReport now st d).hideTimers = st.hideTimers) ∧
    (1 ≤ d.percent → d2.percent < 1 → t1 < now + 3000 →
      (fireDue (now + 3000)
        (onProgressReport t1 (onProgressReport now st d) d2)).visible = false) := by
  refine ⟨rfl, rfl, fun h => ?_, fun h1 h2 _ => ?_⟩
  · simp [onProgressReport, not_le.mpr h]
  · have hst2 : (onProgressReport t1 (onProgressReport now st d) d2).hideTimers =
        st.hideTimers ++ [now + 3000] := by
      simp [onProgressReport, h1, not_le.mpr h2]
    have hany : ((onProgressReport t1 (onProgressReport now st d) d2).hideTimers).any
        (fun ft => decide (ft ≤ now + 3000)) = true := by
      rw [hst2]
      simp
    unfold fireDue
    rw [hany]
    simp

/-- Witness for C3: a finished report (percent 1) at time 0 followed by a
fresh report (percent 0) at time 1000 still hides the indicator at 3000. -/
theorem c3_progressReport_witness :
    (onProgressReport 0 ⟨false, "", []⟩ ⟨"done", 1⟩).hideTimers =
        (if (1 : Rat) ≤ 1 then ([] : List Nat) ++ [0 + 3000] else []) ∧
      (fireDue (0 + 3000)
        (onProgressReport 1000 (onProgressReport 0 ⟨false, "", []⟩ ⟨"done", 1⟩)
          ⟨"again", 0⟩)).visible = false := by
  constructor
  · exact (c3_progressReport 0 1000 ⟨false, "", []⟩ ⟨"done", 1⟩ ⟨"again", 0⟩).1
  · exact (c3_progressReport 0 1000 ⟨false, "", []⟩ ⟨"done", 1⟩ ⟨"again", 0⟩).2.2.2
      (by norm_num) (by norm_num) (by norm_num)

/-! ## `onDidChangeConfiguration` (source lines 84-97) -/

inductive ConfigAction where
  | invokeFindJava
  | reconfigureAnnotator
  | restartServer
deriving DecidableEq

/-- The configuration-change handler: it re-invokes `findJava()`, compares
the result (`newJavaPath`) with the cached `javaExecutablePath`
(`cachedJavaPath`), updates the cache and remembers to restart when they
differ, always calls `Annotator.onDidChangeConfiguration`, and finally
restarts when flagged.  Returns the new cached path and the actions in
execution order. -/
def onDidChangeConfiguration (cachedJavaPath newJavaPath : Option String) :
    Option String × List ConfigAction :=
  ((if newJavaPath ≠ cachedJavaPath then newJavaPath else cachedJavaPath),
    [ConfigAction.invokeFindJava, ConfigAction.reconfigureAnnotator] ++
      (if newJavaPath ≠ cachedJavaPath then [ConfigAction.restartServer] else []))

/-- Claim C6: on every configuration-change event the Java locator is
re-invoked and the annotator is re-configured; the server is restarted if
and only if the newly resolved Java path differs from the cached one, and in
that case the cache is updated to the new value. -/
theorem c6_onDidChangeConfiguration (cached newPath : Option String) :
    (ConfigAction.invokeFindJava ∈ (onDidChangeConfiguration cached newPath).2) ∧
    (ConfigAction.reconfigureAnnotator ∈ (onDidChangeConfiguration cached newPath).2) ∧
    (ConfigAction.restartServer ∈ (onDidChangeConfiguration cached newPath).2 ↔
      newPath ≠ cached) ∧
    (newPath ≠ cached → (onDidChangeConfiguration cached newPath).1 = newPath) ∧
    (newPath = cached → (onDidChangeConfiguration cached newPath).1 = cached) := by
  by_cases h : newPath = cached
  · simp [onDidChangeConfiguration, h]
  · simp [onDidChangeConfiguration, h]

/-- Witness for C6: a changed path restarts and updates the cache; an
unchanged path leaves the cache. -/
theorem c6_onDidChangeConfiguration_witness :
    (onDidChangeConfiguration none (some "/usr/bin/java")).1 = some "/usr/bin/java" ∧
      (ConfigAction.restartServer ∈ (onDidChangeConfiguration none (some "/usr/bin/java")).2 ↔
        (some "/usr/bin/java" : Option String) ≠ none) ∧
      (onDidChangeConfiguration (some "/usr/bin/java") (some "/usr/bin/java")).1 =
        some "/usr/bin/java" := by
  refine ⟨?_, ?_, ?_⟩
  · exact (c6_onDidChangeConfiguration none (some "/usr/bin/java")).2.2.2.1 (by decide)
  · exact (c6_onDidChangeConfiguration none (some "/usr/bin/java")).2.2.1
  · exact (c6_onDidChangeConfiguration (some "/usr/bin/java") (some "/usr/bin/java")).2.2.2.2 rfl

/-! ## The annotator bridge (source lines 18, 67-78)

`const LANGUAGE_ID = 'lua'`.  Documents carry an identity (`docId`) modelling
JavaScript object identity, which the source compares with `===`. -/

def LANGUAGE_ID : String := "lua"

structure TextDocument where
  docId : Nat
  languageId : String
deriving DecidableEq

structure TextEditor where
  document : TextDocument
deriving DecidableEq

/-- `onDidChangeTextDocument` (lines 67-71): returns how many
`Annotator.requestAnnotators` calls the handler issues for the event. -/
def onDidChangeTextDocument (activeEditor : Option TextEditor)
    (eventDoc : TextDocument) : Nat :=
  match activeEditor with
  | some ed =>
    if ed.document = eventDoc ∧ ed.document.languageId = LANGUAGE_ID then 1 else 0
  | none => 0

/-- `onDidChangeActiveTextEditor` (lines 73-78): returns the new
`activeEditor` reference and how many annotator requests were issued. -/
def onDidChangeActiveTextEditor (activeEditor : Option TextEditor)
    (editor : Option TextEditor) : Option TextEditor × Nat :=
  match editor with
  | some ed =>
    if ed.document.languageId = LANGUAGE_ID then (some ed, 1) else (activeEditor, 0)
  | none => (activeEditor, 0)

/-- Claim C7: an annotator request is issued exactly once per qualifying
event — a document-change event whose document is the active editor's
document with language `lua`, or an active-editor-change event whose new
editor's document has language `lua` — and never for an event whose
document's language differs from `lua` (nor when there is no active editor
resp. no new editor). -/
theorem c7_annotator (act : Option TextEditor) (ed : TextEditor) (doc : TextDocument) :
    (doc.languageId ≠ "lua" → onDidChangeTextDocument act doc = 0) ∧
    (ed.document = doc → doc.languageId = "lua" →
      onDidChangeTextDocument (some ed) doc = 1) ∧
    (ed.document ≠ doc → onDidChangeTextDocument (some ed) doc = 0) ∧
    (onDidChangeTextDocument none doc = 0) ∧
    (ed.document.languageId = "lua" →
      onDidChangeActiveTextEditor act (some ed) = (some ed, 1)) ∧
    (ed.document.languageId ≠ "lua" →
      onDidChangeActiveTextEditor act (some ed) = (act, 0)) ∧
    (onDidChangeActiveTextEditor act none = (act, 0)) := by
  refine ⟨fun h => ?_, fun h1 h2 => ?_, fun h => ?_, rfl, fun h => ?_, fun h => ?_, rfl⟩
  · cases act with
    | none => rfl
    | some e =>
      simp only [onDidChangeTextDocument, LANGUAGE_ID]
      rw [if_neg]
      rintro ⟨hd, hl⟩
      exact h (hd ▸ hl)
  · simp [onDidChangeTextDocument, LANGUAGE_ID, h1, h2]
  · simp [onDidChangeTextDocument, LANGUAGE_ID, h]
  · simp [onDidChangeActiveTextEditor, LANGUAGE_ID, h]
  · simp [onDidChangeActiveTextEditor, LANGUAGE_ID, h]

/-- Witness for C7 at concrete editors and documents. -/
theorem c7_annotator_witness :
    onDidChangeTextDocument (some ⟨⟨0, "lua"⟩⟩) ⟨0, "lua"⟩ = 1 ∧
      onDidChangeTextDocument (some ⟨⟨0, "lua"⟩⟩) ⟨1, "txt"⟩ = 0 ∧
      onDidChangeActiveTextEditor none (some ⟨⟨2, "lua"⟩⟩) = (some ⟨⟨2, "lua"⟩⟩, 1) ∧
      onDidChangeActiveTextEditor none (some ⟨⟨2, "txt"⟩⟩) = (none, 0) := by
  refine ⟨?_, ?_, ?_, ?_⟩
  · exact (c7_annotator (some ⟨⟨0, "lua"⟩⟩) ⟨⟨0, "lua"⟩⟩ ⟨0, "lua"⟩).2.1 rfl rfl
  · exact (c7_annotator (some ⟨⟨0, "lua"⟩⟩) ⟨⟨0, "lua"⟩⟩ ⟨1, "txt"⟩).2.2.1 (by decide)
  · exact (c7_annotator none ⟨⟨2, "lua"⟩⟩ ⟨2, "lua"⟩).2.2.2.2.1 rfl
  · exact (c7_annotator none ⟨⟨2, "txt"⟩⟩ ⟨2, "txt"⟩).2.2.2.2.2.1 (by decide)

/-! ## `insertEmmyDebugCode` (source lines 234-268) -/

inductive Platform where
  | win32
  | darwin
  | linux
  | other (name : String)
deriving DecidableEq

/-- `path.join(savedContext.extensionPath, rel)`. -/
def pathJoin (a b : String) : String := a ++ "/" ++ b

/-- `dllPath.replace(/\\/g, '/')` (line 265). -/
def replaceBackslashes (s : String) : String :=
  String.mk (s.toList.map fun c => if c = '\\' then '/' else c)

/-- The fixed three-line template (lines 262-267), with
`const host = 'localhost'` and `const port = 9966` substituted. -/
def debugSnippet (dllPath : String) : String :=
  "package.cpath = package.cpath .. \";" ++ replaceBackslashes dllPath ++ "\"\n" ++
    "local dbg = require(\"emmy_core\")\n" ++
    "dbg.tcpListen(\"localhost\", 9966)"

/-- The `emmy.insertEmmyDebugCode` command handler.  `archPick` is the value
the `showQuickPick(['x64', 'x86'])` promise resolves with on Windows
(`none` = dismissed).  Returns the inserted snippet text, or `none` when no
edit is made. -/
def insertEmmyDebugCode (activeEditor : Option TextEditor) (platform : Platform)
    (extensionPath : String) (archPick : Option String) : Option String :=
  match activeEditor with
  | none => none
  | some ed =>
    if ed.document.languageId ≠ "lua" then none
    else
      match platform with
      | .win32 =>
        match archPick with
        | none => none
        | some arch =>
          some (debugSnippet
            (pathJoin extensionPath ("debugger/emmy/windows/" ++ arch ++ "/?.dll")))
      | .darwin =>
        some (debugSnippet (pathJoin extensionPath "debugger/emmy/mac/emmy_core.dylib"))
      | .linux =>
        some (debugSnippet (pathJoin extensionPath "debugger/emmy/linux/emmy_core.so"))
      | .other _ => some (debugSnippet "")

/-- Claim C8: the insert-debug-snippet command produces no edit when there is
no active editor, when the active document's language is not `lua`, or when
the platform is Windows and the architecture quick-pick is dismissed;
otherwise it inserts the fixed three-line template with the computed library
path (and the fixed host `localhost` and port 9966 baked into the
template). -/
theorem c8_insertEmmyDebugCode (ed : TextEditor) (p : Platform) (e : String)
    (a : Option String) (arch : String) :
    (insertEmmyDebugCode none p e a = none) ∧
    (ed.document.languageId ≠ "lua" → insertEmmyDebugCode (some ed) p e a = none) ∧
    (ed.document.languageId = "lua" →
      insertEmmyDebugCode (some ed) .win32 e none = none) ∧
    (ed.document.languageId = "lua" →
      insertEmmyDebugCode (some ed) .win32 e (some arch) =
        some (debugSnippet (pathJoin e ("debugger/emmy/windows/" ++ arch ++ "/?.dll")))) ∧
    (ed.document.languageId = "lua" →
      insertEmmyDebugCode (some ed) .darwin e a =
        some (debugSnippet (pathJoin e "debugger/emmy/mac/emmy_core.dylib"))) ∧
    (ed.document.languageId = "lua" →
      insertEmmyDebugCode (some ed) .linux e a =
        some (debugSnippet (pathJoin e "debugger/emmy/linux/emmy_core.so"))) := by
  refine ⟨rfl, fun h => ?_, fun h => ?_, fun h => ?_, fun h => ?_, fun h => ?_⟩
  all_goals simp [insertEmmyDebugCode, h]

/-- Witness for C8 at a concrete editor/path. -/
theorem c8_insertEmmyDebugCode_witness :
    insertEmmyDebugCode (some ⟨⟨0, "txt"⟩⟩) Platform.linux "/ext" none = none ∧
      insertEmmyDebugCode (some ⟨⟨0, "lua"⟩⟩) Platform.win32 "/ext" none = none ∧
      insertEmmyDebugCode (some ⟨⟨0, "lua"⟩⟩) Platform.win32 "/ext" (some "x64") =
        some (debugSnippet (pathJoin "/ext" ("debugger/emmy/windows/" ++ "x64" ++ "/?.dll"))) ∧
      insertEmmyDebugCode (some ⟨⟨0, "lua"⟩⟩) Platform.darwin "/ext" none =
        some (debugSnippet (pathJoin "/ext" "debugger/emmy/mac/emmy_core.dylib")) := by
  refine ⟨?_, ?_, ?_, ?_⟩
  · exact (c8_insertEmmyDebugCode ⟨⟨0, "txt"⟩⟩ Platform.linux "/ext" none "x64").2.1 (by decide)
  · exact (c8_insertEmmyDebugCode ⟨⟨0, "lua"⟩⟩ Platform.win32 "/ext" none "x64").2.2.1 rfl
  · exact (c8_insertEmmyDebugCode ⟨⟨0, "lua"⟩⟩ Platform.win32 "/ext" none "x64").2.2.2.1 rfl
  · exact (c8_insertEmmyDebugCode ⟨⟨0, "lua"⟩⟩ Platform.darwin "/ext" none "x64").2.2.2.2.1 rfl

/-- Claim C9: on a platform that is none of Windows, macOS or Linux, the
command does not return early for an active `lua` document: `dllPath` keeps
its initialiser `''`, and the three-line template is inserted with the empty
library path. -/
theorem c9_insertEmmyDebugCode_other (ed : TextEditor) (name e : String)
    (a : Option String) (h : ed.document.languageId = "lua") :
    insertEmmyDebugCode (some ed) (.other name) e a = some (debugSnippet "") ∧
      debugSnippet "" =
        "package.cpath = package.cpath .. \";\"\nlocal dbg = require(\"emmy_core\")\ndbg.tcpListen(\"localhost\", 9966)" := by
  constructor
  · simp [insertEmmyDebugCode, h]
  · rfl

/-- Witness for C9: a concrete unknown platform (`"freebsd"`). -/
theorem c9_insertEmmyDebugCode_other_witness :
    insertEmmyDebugCode (some ⟨⟨0, "lua"⟩⟩) (.other "freebsd") "/ext" none =
      some (debugSnippet "") :=
  (c9_insertEmmyDebugCode_other ⟨⟨0, "lua"⟩⟩ "freebsd" "/ext" none rfl).1

/-! ## `onConfigUpdate` (source lines 228-232) -/

/-- The config-update subscriber: with no client yet (`client` still
undefined) the event is dropped — there is no queue in the source — and with
a client it is forwarded verbatim as the `emmy/updateConfig` request.
Returns the list of requests sent. -/
def onConfigUpdate {α : Type} (clientExists : Bool) (e : α) : List (String × α) :=
  if clientExists then [("emmy/updateConfig", e)] else []

/-- Claim C10: a configuration-update event arriving before any client
connection exists is silently dropped (no request, nothing queued), and once
a client exists every update event is forwarded verbatim as an
`emmy/updateConfig` request. -/
theorem c10_onConfigUpdate :
    (∀ (α : Type) (e : α), onConfigUpdate false e = []) ∧
    (∀ (α : Type) (e : α), onConfigUpdate true e = [("emmy/updateConfig", e)]) :=
  ⟨fun _ _ => rfl, fun _ _ => rfl⟩
